import Mathlib

/-!
Shallow embedding of the ncspot coordination core: the application run loop
(src/application.rs), the credential-acquisition flow (src/authentication.rs)
and the macOS output-device monitor (src/macos_audio.rs).

Stateful code is embedded as pure functions from the inputs the code reads
(player status, queue contents, poll results, network outcomes) to the list
of externally visible actions it performs, in program order, together with
its result value.  Machine integers that cannot overflow in the modelled
ranges (ports, milliseconds) are Nat.
-/

namespace Ncspot

/-- Modelled from the spec: a queue entry ("track X") is opaque to the run
loop; `Playable` lives in the missing queue/spotify modules, so it is an
abstract identifier here. -/
abbrev Playable := Nat

/-- Modelled from the spec: PlayerState/PlayerEvent is an "enumeration of
playback lifecycle states (e.g., Playing, Paused, Stopped, FinishedTrack)";
the type itself lives in the missing spotify module.  The payloads carried by
`Playing`/`Paused` are abstracted to Nat; application.rs only pattern-matches
on the constructor. -/
inductive PlayerEvent where
  | playing (startedAt : Nat)
  | paused (positionMs : Nat)
  | stopped
  | finishedTrack
  deriving DecidableEq, Repr

/-- Modelled from the spec: `Command` is an "opaque value produced by parsing
external textual input"; the run loop only constructs `Quit` itself and hands
everything to CommandManager.  The type lives in the missing command module. -/
inductive Command where
  | quit
  | other (text : String)
  deriving DecidableEq, Repr

/-- Modelled from the spec: the Event tagged union drained from the hub
(events.rs is not under src/); the variants are exactly the ones dispatched in
`Application::run`. -/
inductive Event where
  | player (state : PlayerEvent)
  | queue (payload : Nat)
  | sessionDied
  | ipcInput (input : String)
  | audioDeviceChanged (deviceName : String)
  deriving DecidableEq, Repr

/-- Externally visible actions of one run-loop iteration, in program order. -/
inductive Action where
  | uiStep
  | dispatch (c : Command)
  | updateStatus (s : PlayerEvent)
  | ipcPublish (s : PlayerEvent)
  | queueNext
  | queueHandleEvent (payload : Nat)
  | startWorker
  | logParseError
  | logWorkerError
  | abortRun
  | pause
  | sleepMs (n : Nat)
  | setBackendDevice (d : Option String)
  | load (track : Playable) (startPlaying : Bool) (positionMs : Nat)
  deriving DecidableEq, Repr

/-- The run-loop state read by `Application::run` when handling one event:
whether cursive user data is set, whether the IPC socket exists, whether
`Spotify::start_worker` would succeed, the current player status and progress,
the queue's current entry, and the command parsing of the missing command
module (abstracted as a function, per the spec: "accepts text, yields
commands"). -/
structure LoopEnv where
  userDataPresent : Bool
  ipcPresent : Bool
  workerStartOk : Bool
  status : PlayerEvent
  currentTrack : Option Playable
  progressMs : Nat
  parse : String → Except String (List Command)

/-- Embeds the `Event::AudioDeviceChanged` arm of `Application::run`
(application.rs lines 352-403): snapshot status/track/position, pause with a
100 ms settling sleep when playing, persist the device into the config, start
a new worker, and on success reload the current track paused at the recorded
position (0 when the position was not recorded); a worker start failure is
logged and the arm `continue`s. -/
def handleAudioDeviceChanged (env : LoopEnv) (deviceName : String) : List Action :=
  let wasPlaying := match env.status with
    | .playing _ => true
    | _ => false
  let currentPosition : Option Nat := match env.status with
    | .playing _ => some env.progressMs
    | .paused _ => some env.progressMs
    | _ => none
  let pauseActions := if wasPlaying then [Action.pause, Action.sleepMs 100] else []
  let device : Option String := if deviceName = "" then none else some deviceName
  let setup := pauseActions ++ [Action.setBackendDevice device, Action.startWorker]
  if env.workerStartOk then
    setup ++ match env.currentTrack with
      | some track =>
        match currentPosition with
        | some pos => [Action.load track false pos]
        | none => [Action.load track false 0]
      | none => []
  else
    setup ++ [Action.logWorkerError]

/-- Embeds the event dispatch of `Application::run` (application.rs lines
313-404), one event at a time. -/
def handleEvent (env : LoopEnv) : Event → List Action
  | .player state =>
    [Action.updateStatus state]
      ++ (if env.ipcPresent then [Action.ipcPublish state] else [])
      ++ (if state = .finishedTrack then [Action.queueNext] else [])
  | .queue payload => [Action.queueHandleEvent payload]
  | .sessionDied =>
    [Action.startWorker]
      ++ if env.workerStartOk then []
         else if env.userDataPresent then [Action.dispatch .quit]
         else [Action.abortRun]
  | .ipcInput input =>
    match env.parse input with
    | .ok commands =>
      if env.userDataPresent then commands.map Action.dispatch else []
    | .error _ => [Action.logParseError]
  | .audioDeviceChanged deviceName => handleAudioDeviceChanged env deviceName

def SIGHUP : Int := 1

def SIGTERM : Int := 15

/-- Embeds the body of the signal polling loop in `Application::run`
(application.rs lines 304-312): each pending signal equal to SIGTERM or
SIGHUP dispatches `Command::Quit` when the cursive user data is set. -/
def signalAction (env : LoopEnv) (signal : Int) : List Action :=
  if signal = SIGTERM ∨ signal = SIGHUP then
    if env.userDataPresent then [Action.dispatch .quit] else []
  else []

/-- Embeds one iteration of the `while self.cursive.is_running()` loop in
`Application::run`: one UI step, then the pending-signal poll, then a full
drain of the event hub. -/
def runLoopIteration (env : LoopEnv) (pendingSignals : List Int)
    (events : List Event) : List Action :=
  [Action.uiStep]
    ++ pendingSignals.flatMap (signalAction env)
    ++ events.flatMap (handleEvent env)

/-- Embeds one poll iteration of the monitor task spawned by
`start_device_monitor` (macos_audio.rs lines 142-175): given the last
observed default-output name and the freshly polled one (`none` when
undetectable), returns the posted event payload (if any) and the updated
last-observed value.  The send is modelled as succeeding (receiver alive). -/
def devicePollStep (lastDeviceName currentDeviceName : Option String) :
    Option String × Option String :=
  if currentDeviceName ≠ lastDeviceName then
    (some (currentDeviceName.getD ""), currentDeviceName)
  else
    (none, lastDeviceName)

/-! ## Credential acquisition (src/authentication.rs) -/

/-- Credentials are an opaque bearer bundle; `Credentials::with_access_token`
wraps a token string, so a credential value is embedded as that string. -/
abbrev Credentials := String

/-- Externally visible actions of the credential-acquisition flow, in
program order.  `bindPort` is the probe bind of `find_free_port`
(TcpListener::bind "127.0.0.1:0"); `bindListener` is the callback listener
bind in `get_authcode_from_redirect` (or inside the PKCE helper). -/
inductive AuthAction where
  | useCached
  | validate (c : Credentials)
  | bindPort
  | openBrowser
  | bindListener
  | exchangeCode (code : String)
  deriving DecidableEq, Repr

/-- Splits a character list at every separator matching `p`, keeping empty
groups, as Rust `str::split` does. -/
def splitList (p : Char → Bool) : List Char → List (List Char)
  | [] => [[]]
  | c :: rest =>
    let r := splitList p rest
    if p c then [] :: r
    else
      match r with
      | [] => [[c]]
      | g :: gs => (c :: g) :: gs

/-- Characters before the first separator matching `p` (the whole list when
no separator occurs). -/
def upTo (p : Char → Bool) : List Char → List Char
  | [] => []
  | c :: rest => if p c then [] else c :: upTo p rest

/-- Characters after the first separator matching `p`, or `none` when no
separator occurs. -/
def afterFirst (p : Char → Bool) : List Char → Option (List Char)
  | [] => none
  | c :: rest => if p c then some rest else afterFirst p rest

/-- Rust `str::split_whitespace`: split on whitespace characters, dropping
empty pieces. -/
def splitWhitespace (s : String) : List String :=
  ((splitList Char.isWhitespace s.data).filter (· ≠ [])).map String.mk

/-- Hexadecimal digit value, as in percent-decoding. -/
def hexVal (c : Char) : Option Nat :=
  if '0' ≤ c ∧ c ≤ '9' then some (c.toNat - '0'.toNat)
  else if 'a' ≤ c ∧ c ≤ 'f' then some (c.toNat - 'a'.toNat + 10)
  else if 'A' ≤ c ∧ c ≤ 'F' then some (c.toNat - 'A'.toNat + 10)
  else none

/-- Form-urlencoded decoding as performed by `Url::query_pairs`: `+` becomes
a space and `%XY` a code point (ASCII scope suffices here); malformed escapes
are kept verbatim. -/
def formDecodeChars : List Char → List Char
  | [] => []
  | '+' :: rest => ' ' :: formDecodeChars rest
  | '%' :: h :: l :: rest =>
    match hexVal h, hexVal l with
    | some hv, some lv => Char.ofNat (16 * hv + lv) :: formDecodeChars rest
    | _, _ => '%' :: formDecodeChars (h :: l :: rest)
  | c :: rest => c :: formDecodeChars rest

def formDecode (s : String) : String :=
  String.mk (formDecodeChars s.data)

/-- Query portion of a URL as `Url::query` sees it: everything after the
first `?`, cut at the first `#`. -/
def queryOf (url : String) : String :=
  match afterFirst (· = '?') url.data with
  | none => ""
  | some cs => String.mk (upTo (· = '#') cs)

/-- One `key=value` piece: split at the first `=` (no `=` means empty
value), both sides form-decoded. -/
def queryPairOf (piece : List Char) : String × String :=
  (formDecode (String.mk (upTo (· = '=') piece)),
   formDecode (String.mk ((afterFirst (· = '=') piece).getD [])))

/-- `Url::query_pairs`: split the query on `&`, drop empty pieces, decode
each pair. -/
def queryPairs (url : String) : List (String × String) :=
  ((splitList (· = '&') (queryOf url).data).filter (· ≠ [])).map queryPairOf

/-- Embeds `get_code_from_url` (authentication.rs lines 193-199): the first
query pair whose key is `code`, or a descriptive error.  `Url::parse` cannot
fail on the `http://localhost{path}` inputs this is called with (the path is
a whitespace-free token), so URL-parse failure is not modelled. -/
def get_code_from_url (redirectUrl : String) : Except String String :=
  match (queryPairs redirectUrl).find? (fun kv => kv.1 == "code") with
  | some kv => .ok kv.2
  | none => .error ("No authorization code found in URL: " ++ redirectUrl)

/-- Request target of an HTTP request line: `request_line.split_whitespace().nth(1)`. -/
def requestPath (requestLine : String) : Option String :=
  (splitWhitespace requestLine)[1]?

/-- Redirect URL reconstructed by `get_authcode_from_redirect` from the
request line (empty path when the line has no second token, in which case the
caller errors out first). -/
def redirectUrlOfLine (requestLine : String) : String :=
  "http://localhost" ++ (requestPath requestLine).getD ""

/-- Embeds the parsing part of `get_authcode_from_redirect` (authentication.rs
lines 211-249) as a function of the one HTTP request line read from the
accepted connection; the listener bind itself is traced by the caller. -/
def get_authcode_from_redirect (requestLine : String) : Except String String :=
  match requestPath requestLine with
  | none => .error "Failed to parse request"
  | some path => get_code_from_url ("http://localhost" ++ path)

/-- Network-side outcomes of one interactive login attempt: the request line
the OAuth callback listener reads, the result of the token-exchange HTTP call
(`exchange_code(code).request(...)`, keyed by the code sent), and the result
of the external PKCE helper `oauth_client.get_access_token()`.  `hasSecret`
is whether the configuration carries a client secret. -/
structure PromptEnv where
  hasSecret : Bool
  requestLine : String
  exchange : String → Except String String
  pkceResult : Except String String

/-- Embeds `create_credentials_with_secret` (authentication.rs lines 140-190):
probe a free port (`get_client_redirect_uri`), open the browser on the
authorization URL, bind the callback listener and read one request line,
extract the authorization code, and only then exchange it for a token on a
worker thread.  A missing code aborts before any exchange. -/
def create_credentials_with_secret (p : PromptEnv) :
    List AuthAction × Except String Credentials :=
  let pre := [AuthAction.bindPort, AuthAction.openBrowser, AuthAction.bindListener]
  match get_authcode_from_redirect p.requestLine with
  | .error e => (pre, .error e)
  | .ok code =>
    match p.exchange code with
    | .error e => (pre ++ [AuthAction.exchangeCode code],
                   .error ("Token exchange failed: " ++ e))
    | .ok token => (pre ++ [AuthAction.exchangeCode code], .ok token)

/-- Embeds `create_credentials_pkce` (authentication.rs lines 125-137): the
redirect URI is built with `get_client_redirect_uri` (one probe bind), then
the external `librespot_oauth` client runs the browser/listener/exchange
internally; its outcome is the abstract `pkceResult`. -/
def create_credentials_pkce (p : PromptEnv) :
    List AuthAction × Except String Credentials :=
  ([AuthAction.bindPort], p.pkceResult)

/-- Embeds `create_credentials` (authentication.rs lines 108-122): the
Authorization-Code flow when a client secret is configured, PKCE otherwise. -/
def create_credentials (p : PromptEnv) :
    List AuthAction × Except String Credentials :=
  if p.hasSecret then create_credentials_with_secret p
  else create_credentials_pkce p

/-- Inputs of `get_credentials` (authentication.rs lines 71-93): the cached
credentials (if any), `Spotify::test_credentials` abstracted as a function
(the spotify module is not under src/), and the network outcomes of the
successive interactive prompts.  The finite prompt list bounds the otherwise
unbounded retry loop; exhausting it models an acquisition that is still
blocked in a prompt. -/
structure AuthEnv where
  cachedCredentials : Option Credentials
  test : Credentials → Except String Unit
  prompts : List PromptEnv

/-- Embeds the `while let Err(error) = Spotify::test_credentials(..)` loop of
`get_credentials`: validate, and on failure run `credentials_prompt` (which
is `create_credentials`) and validate its result again, until validation
succeeds, a prompt itself errors (the `?`), or the modelled prompt outcomes
run out. -/
def getCredentialsLoop (test : Credentials → Except String Unit) :
    List PromptEnv → Credentials → List AuthAction × Except String Credentials
  | [], c =>
    match test c with
    | .ok _ => ([AuthAction.validate c], .ok c)
    | .error _ => ([AuthAction.validate c], .error "out of modelled prompt outcomes")
  | p :: rest, c =>
    match test c with
    | .ok _ => ([AuthAction.validate c], .ok c)
    | .error _ =>
      let prompted := create_credentials p
      match prompted.2 with
      | .error e => (AuthAction.validate c :: prompted.1, .error e)
      | .ok c2 =>
        let looped := getCredentialsLoop test rest c2
        (AuthAction.validate c :: prompted.1 ++ looped.1, looped.2)

/-- Embeds `get_credentials` (authentication.rs lines 71-93): take the cached
credentials when present, otherwise prompt once; then run the validation
loop. -/
def get_credentials (env : AuthEnv) : List AuthAction × Except String Credentials :=
  match env.cachedCredentials with
  | some c =>
    let looped := getCredentialsLoop env.test env.prompts c
    (AuthAction.useCached :: looped.1, looped.2)
  | none =>
    match env.prompts with
    | [] => ([], .error "out of modelled prompt outcomes")
    | p :: rest =>
      let prompted := create_credentials p
      match prompted.2 with
      | .error e => (prompted.1, .error e)
      | .ok c =>
        let looped := getCredentialsLoop env.test rest c
        (prompted.1 ++ looped.1, looped.2)

/-- Result of a call that may, besides succeeding or returning a graceful
error value, abort the process by panicking (Rust `expect`). -/
inductive Outcome (α : Type) where
  | ok (a : α)
  | err (e : String)
  | panicked (msg : String)
  deriving DecidableEq, Repr

/-- Embeds `find_free_port` (authentication.rs lines 56-62), parameterized by
the OS outcome of `TcpListener::bind("127.0.0.1:0")` followed by
`local_addr()` (a bound port number, or the error string of whichever call
failed): both failure points are mapped to an error string via `map_err`. -/
def find_free_port (osBind : Except String Nat) : Except String Nat :=
  match osBind with
  | .ok port => .ok port
  | .error e => .error e

/-- Embeds `get_client_redirect_uri` (authentication.rs lines 64-67): the
port-probe error is unwrapped with `expect("Could not find free port")`,
which panics instead of propagating. -/
def get_client_redirect_uri (osBind : Except String Nat) : Outcome String :=
  match find_free_port osBind with
  | .ok port => .ok ("http://127.0.0.1:" ++ toString port ++ "/login")
  | .error _ => .panicked "Could not find free port"

/-! ## Theorems -/

/-- C1: on an OutputDeviceChanged event while a track is playing at position
p, the handler pauses playback with the fixed 100 ms settling delay, persists
the new device selection into the configuration before restarting the
playback worker, and after a successful restart reloads the same track at
position p in the paused state; moreover no device-change handling ever
issues a load that starts playing (playback is never auto-resumed). -/
theorem device_swap_reload_paused :
    (∀ (env : LoopEnv) (startedAt : Nat) (track : Playable) (d : String),
       env.status = .playing startedAt → env.currentTrack = some track →
       env.workerStartOk = true →
       handleAudioDeviceChanged env d =
         [Action.pause, Action.sleepMs 100,
          Action.setBackendDevice (if d = "" then none else some d),
          Action.startWorker, Action.load track false env.progressMs]) ∧
    (∀ (env : LoopEnv) (d : String) (track : Playable) (b : Bool) (pos : Nat),
       Action.load track b pos ∈ handleAudioDeviceChanged env d → b = false) := by
  constructor
  · intro env startedAt track d hs ht hw
    simp [handleAudioDeviceChanged, hs, ht, hw]
  · intro env d track b pos hmem
    obtain ⟨u, i, w, st, ct, pr, pa⟩ := env
    cases st <;> cases ct <;> cases w <;>
      simp [handleAudioDeviceChanged] at hmem <;>
      tauto

/-- C1 witness: concrete device swap mid-playback at 30000 ms. -/
theorem device_swap_reload_paused_witness :
    handleAudioDeviceChanged
        ⟨true, true, true, .playing 5, some 42, 30000, fun _ => .ok []⟩ "Headphones" =
      [Action.pause, Action.sleepMs 100, Action.setBackendDevice (some "Headphones"),
       Action.startWorker, Action.load 42 false 30000] := by
  have h := device_swap_reload_paused.1
    ⟨true, true, true, .playing 5, some 42, 30000, fun _ => .ok []⟩
    5 42 "Headphones" rfl rfl rfl
  rw [if_neg (by decide : ¬("Headphones" : String) = "")] at h
  exact h

/-- C10: when the device-change handler runs with a current track present but
the player neither Playing nor Paused, the track is still reloaded into the
restarted worker, paused at position 0; the reload is skipped exactly when
there is no current track. -/
theorem device_swap_stopped_reload :
    (∀ (env : LoopEnv) (d : String) (track : Playable),
       env.currentTrack = some track →
       (∀ x, env.status ≠ .playing x) → (∀ x, env.status ≠ .paused x) →
       env.workerStartOk = true →
       handleAudioDeviceChanged env d =
         [Action.setBackendDevice (if d = "" then none else some d),
          Action.startWorker, Action.load track false 0]) ∧
    (∀ (env : LoopEnv) (d : String), env.currentTrack = none →
       ∀ (track : Playable) (b : Bool) (pos : Nat),
         Action.load track b pos ∉ handleAudioDeviceChanged env d) := by
  constructor
  · intro env d track ht hnp hnpa hw
    obtain ⟨u, i, w, st, ct, pr, pa⟩ := env
    cases st with
    | playing x => exact absurd rfl (hnp x)
    | paused x => exact absurd rfl (hnpa x)
    | stopped => simp_all [handleAudioDeviceChanged]
    | finishedTrack => simp_all [handleAudioDeviceChanged]
  · intro env d ht track b pos hmem
    obtain ⟨u, i, w, st, ct, pr, pa⟩ := env
    cases st <;> cases w <;> simp_all [handleAudioDeviceChanged]

/-- C10 witness: stopped player, current track 7 — reloaded paused at 0. -/
theorem device_swap_stopped_reload_witness :
    handleAudioDeviceChanged
        ⟨true, true, true, .stopped, some 7, 123, fun _ => .ok []⟩ "Headphones" =
      [Action.setBackendDevice (some "Headphones"), Action.startWorker,
       Action.load 7 false 0] := by
  have h := device_swap_stopped_reload.1
    ⟨true, true, true, .stopped, some 7, 123, fun _ => .ok []⟩ "Headphones" 7 rfl
    (fun x hx => PlayerEvent.noConfusion hx) (fun x hx => PlayerEvent.noConfusion hx) rfl
  rw [if_neg (by decide : ¬("Headphones" : String) = "")] at h
  exact h

/-- C6: a SessionDied event performs exactly one playback-worker restart
attempt, dispatches Quit exactly when that attempt fails, and never aborts
the loop. -/
theorem session_died_single_restart :
    ∀ (env : LoopEnv), env.userDataPresent = true →
      ((handleEvent env .sessionDied).count Action.startWorker = 1) ∧
      (Action.dispatch .quit ∈ handleEvent env .sessionDied ↔
        env.workerStartOk = false) ∧
      (Action.abortRun ∉ handleEvent env .sessionDied) := by
  intro env h
  obtain ⟨u, i, w, st, ct, pr, pa⟩ := env
  subst h
  cases w <;> simp [handleEvent]

/-- C6 witness: failed restart dispatches Quit; one startWorker in the trace. -/
theorem session_died_single_restart_witness :
    ((handleEvent ⟨true, true, false, .stopped, none, 0, fun _ => .ok []⟩
        .sessionDied).count Action.startWorker = 1) ∧
    (Action.dispatch .quit ∈
      handleEvent ⟨true, true, false, .stopped, none, 0, fun _ => .ok []⟩ .sessionDied) := by
  have h := session_died_single_restart
    ⟨true, true, false, .stopped, none, 0, fun _ => .ok []⟩ rfl
  exact ⟨h.1, h.2.1.mpr rfl⟩

/-- C9: one device-monitor poll posts an event iff the freshly polled name
differs from the last-observed value; on a change the posted payload is the
new name (empty string when undetectable) and the last-observed value is
updated to the new name, so a consecutive poll observing the same name posts
nothing. -/
theorem device_monitor_posts_iff_changed :
    ∀ (lastName currentName : Option String),
      ((devicePollStep lastName currentName).1 ≠ none ↔ currentName ≠ lastName) ∧
      (currentName ≠ lastName →
        devicePollStep lastName currentName = (some (currentName.getD ""), currentName)) ∧
      (currentName = lastName →
        devicePollStep lastName currentName = (none, lastName)) ∧
      ((devicePollStep (devicePollStep lastName currentName).2 currentName).1 = none) := by
  intro lastName currentName
  by_cases h : currentName = lastName <;> simp [devicePollStep, h]

/-- C9 witness: device becomes undetectable — the empty string is posted. -/
theorem device_monitor_posts_iff_changed_witness :
    devicePollStep (some "Speakers") none = (some "", none) := by
  have h := (device_monitor_posts_iff_changed (some "Speakers") none).2.1 (by decide)
  simpa using h

/-- The signal poll over a list of pending signals collapses, when the
cursive user data is set, to one Quit dispatch per termination-class signal. -/
theorem signalActions_replicate (env : LoopEnv) (h : env.userDataPresent = true) :
    ∀ sigs : List Int,
      sigs.flatMap (signalAction env) =
        List.replicate (sigs.countP (fun s => decide (s = SIGTERM ∨ s = SIGHUP)))
          (Action.dispatch .quit) := by
  intro sigs
  induction sigs with
  | nil => simp
  | cons s rest ih =>
    by_cases hs : s = SIGTERM ∨ s = SIGHUP <;>
      simp [signalAction, hs, h, ih, List.replicate_succ, List.countP_cons]

/-- C7: in every run-loop iteration the pending termination-class signals
are polled right after the UI step and before the event hub is drained, each
pending SIGTERM or SIGHUP dispatching one Quit command ahead of any
already-queued events; and SIGTERM and SIGHUP are handled identically. -/
theorem signal_quit_precedence :
    ∀ (env : LoopEnv) (pendingSignals : List Int) (events : List Event),
      env.userDataPresent = true →
      (runLoopIteration env pendingSignals events =
        Action.uiStep ::
          (List.replicate
              (pendingSignals.countP (fun s => decide (s = SIGTERM ∨ s = SIGHUP)))
              (Action.dispatch .quit)
            ++ events.flatMap (handleEvent env))) ∧
      (signalAction env SIGTERM = signalAction env SIGHUP) := by
  intro env pendingSignals events h
  constructor
  · simp [runLoopIteration, signalActions_replicate env h]
  · simp [signalAction, h]

/-- C7 witness: two pending termination-class signals and one other signal
ahead of a queued event — two Quit dispatches sit between the UI step and
the event's handling. -/
theorem signal_quit_precedence_witness :
    runLoopIteration ⟨true, true, true, .stopped, none, 0, fun _ => .ok []⟩
        [SIGTERM, SIGHUP, 2] [Event.queue 9] =
      [Action.uiStep, Action.dispatch .quit, Action.dispatch .quit,
       Action.queueHandleEvent 9] := by
  have h := (signal_quit_precedence ⟨true, true, true, .stopped, none, 0, fun _ => .ok []⟩
    [SIGTERM, SIGHUP, 2] [Event.queue 9] rfl).1
  rw [h]
  rfl

/-- C8: an IPC input that parses to commands has each command dispatched in
order, a parse failure is logged and nothing else happens, an input parsing
to zero commands causes no action at all, and the arm never aborts the run
loop. -/
theorem ipc_input_dispatch :
    ∀ (env : LoopEnv) (input : String), env.userDataPresent = true →
      (∀ commands, env.parse input = .ok commands →
         handleEvent env (.ipcInput input) = commands.map Action.dispatch) ∧
      (∀ e, env.parse input = .error e →
         handleEvent env (.ipcInput input) = [Action.logParseError]) ∧
      (env.parse input = .ok [] → handleEvent env (.ipcInput input) = []) ∧
      (Action.abortRun ∉ handleEvent env (.ipcInput input)) := by
  intro env input h
  cases hp : env.parse input <;> simp [handleEvent, hp, h]

/-- C8 witness: a two-command input dispatches both in order; an empty input
parsing to zero commands dispatches nothing; a parse failure only logs. -/
theorem ipc_input_dispatch_witness :
    handleEvent
        ⟨true, true, true, .stopped, none, 0,
         fun s => if s = "" then .ok []
                  else if s = "bad" then .error "Parsing error"
                  else .ok [Command.other s, Command.quit]⟩
        (.ipcInput "playpause") =
      [Action.dispatch (Command.other "playpause"), Action.dispatch Command.quit] ∧
    handleEvent
        ⟨true, true, true, .stopped, none, 0,
         fun s => if s = "" then .ok []
                  else if s = "bad" then .error "Parsing error"
                  else .ok [Command.other s, Command.quit]⟩
        (.ipcInput "") = [] ∧
    handleEvent
        ⟨true, true, true, .stopped, none, 0,
         fun s => if s = "" then .ok []
                  else if s = "bad" then .error "Parsing error"
                  else .ok [Command.other s, Command.quit]⟩
        (.ipcInput "bad") = [Action.logParseError] := by
  refine ⟨?_, ?_, ?_⟩
  · have h := (ipc_input_dispatch
      ⟨true, true, true, .stopped, none, 0,
       fun s => if s = "" then .ok []
                else if s = "bad" then .error "Parsing error"
                else .ok [Command.other s, Command.quit]⟩ "playpause" rfl).1
    exact h [Command.other "playpause", Command.quit] rfl
  · have h := (ipc_input_dispatch
      ⟨true, true, true, .stopped, none, 0,
       fun s => if s = "" then .ok []
                else if s = "bad" then .error "Parsing error"
                else .ok [Command.other s, Command.quit]⟩ "" rfl).2.2.1
    exact h rfl
  · have h := (ipc_input_dispatch
      ⟨true, true, true, .stopped, none, 0,
       fun s => if s = "" then .ok []
                else if s = "bad" then .error "Parsing error"
                else .ok [Command.other s, Command.quit]⟩ "bad" rfl).2.1
    exact h "Parsing error" rfl

/-- When validation succeeds right away, the loop performs exactly that one
validation, whatever prompt outcomes remain available. -/
theorem getCredentialsLoop_ok_trace (test : Credentials → Except String Unit)
    (prompts : List PromptEnv) (c : Credentials) (u : Unit) (ht : test c = .ok u) :
    getCredentialsLoop test prompts c = ([AuthAction.validate c], .ok c) := by
  cases prompts <;> simp [getCredentialsLoop, ht]

/-- Soundness of the validation loop: whatever credentials the loop returns
have passed `Spotify::test_credentials`. -/
theorem getCredentialsLoop_sound (test : Credentials → Except String Unit) :
    ∀ (prompts : List PromptEnv) (c0 c : Credentials),
      (getCredentialsLoop test prompts c0).2 = .ok c → test c = .ok () := by
  intro prompts
  induction prompts with
  | nil =>
    intro c0 c h
    cases ht : test c0 with
    | ok u =>
      simp [getCredentialsLoop, ht] at h
      cases u
      rw [← h]
      exact ht
    | error e => simp [getCredentialsLoop, ht] at h
  | cons p rest ih =>
    intro c0 c h
    cases ht : test c0 with
    | ok u =>
      simp [getCredentialsLoop, ht] at h
      cases u
      rw [← h]
      exact ht
    | error e =>
      cases hp : (create_credentials p).2 with
      | error e2 => simp [getCredentialsLoop, ht, hp] at h
      | ok c2 =>
        simp [getCredentialsLoop, ht, hp] at h
        exact ih c2 c h

/-- C4: get_credentials tentatively accepts cached credentials and validates
them, re-prompting and re-validating on every failure; it only ever returns
credentials that passed validation, and the loop can run through several
prompt/validate rounds (shown on a two-round instance). -/
theorem credentials_validation_loop :
    (∀ (env : AuthEnv) (c : Credentials),
       (get_credentials env).2 = .ok c → env.test c = .ok ()) ∧
    (∀ (env : AuthEnv) (c : Credentials), env.cachedCredentials = some c →
       ∃ rest, (get_credentials env).1 =
         AuthAction.useCached :: AuthAction.validate c :: rest) ∧
    (get_credentials
        ⟨some "c0", fun c => if c = "c2" then .ok () else .error "revoked",
         [⟨false, "", fun _ => .error "", .ok "c1"⟩,
          ⟨false, "", fun _ => .error "", .ok "c2"⟩]⟩ =
      ([.useCached, .validate "c0", .bindPort, .validate "c1",
        .bindPort, .validate "c2"], .ok "c2")) := by
  refine ⟨?_, ?_, ?_⟩
  · intro env c h
    obtain ⟨cached, test, prompts⟩ := env
    cases cached with
    | some c0 =>
      simp only [get_credentials] at h
      exact getCredentialsLoop_sound test prompts c0 c h
    | none =>
      cases prompts with
      | nil => simp [get_credentials] at h
      | cons p rest =>
        cases hp : (create_credentials p).2 with
        | error e => simp [get_credentials, hp] at h
        | ok c1 =>
          simp only [get_credentials, hp] at h
          exact getCredentialsLoop_sound test rest c1 c h
  · intro env c hc
    obtain ⟨cached, test, prompts⟩ := env
    simp only at hc
    subst hc
    cases ht : test c with
    | ok u => exact ⟨[], by simp [get_credentials, getCredentialsLoop_ok_trace test prompts c u ht]⟩
    | error e =>
      cases prompts with
      | nil => exact ⟨[], by simp [get_credentials, getCredentialsLoop, ht]⟩
      | cons p rest =>
        cases hp : (create_credentials p).2 with
        | error e2 =>
          exact ⟨(create_credentials p).1, by
            simp [get_credentials, getCredentialsLoop, ht, hp]⟩
        | ok c2 =>
          exact ⟨(create_credentials p).1 ++ (getCredentialsLoop test rest c2).1, by
            simp [get_credentials, getCredentialsLoop, ht, hp]⟩
  · rfl

/-- C4 witness: the returned credentials of the two-round instance pass the
validation function. -/
theorem credentials_validation_loop_witness :
    (AuthEnv.mk (some "c0")
        (fun c => if c = "c2" then .ok () else .error "revoked")
        [⟨false, "", fun _ => .error "", .ok "c1"⟩,
         ⟨false, "", fun _ => .error "", .ok "c2"⟩]).test "c2" = .ok () :=
  credentials_validation_loop.1
    ⟨some "c0", fun c => if c = "c2" then .ok () else .error "revoked",
     [⟨false, "", fun _ => .error "", .ok "c1"⟩,
      ⟨false, "", fun _ => .error "", .ok "c2"⟩]⟩ "c2" rfl

/-- C5: when cached credentials exist and pass validation, get_credentials
performs exactly a cache read and one validation — in particular no port
probe and no callback-listener bind appear in its action trace. -/
theorem cache_hit_no_binds :
    ∀ (env : AuthEnv) (c : Credentials),
      env.cachedCredentials = some c → env.test c = .ok () →
      ((get_credentials env).1 = [AuthAction.useCached, AuthAction.validate c]) ∧
      (∀ a ∈ (get_credentials env).1,
        a ≠ AuthAction.bindPort ∧ a ≠ AuthAction.bindListener) := by
  intro env c hc ht
  obtain ⟨cached, test, prompts⟩ := env
  simp only at hc ht
  subst hc
  have htrace : (get_credentials ⟨some c, test, prompts⟩).1 =
      [AuthAction.useCached, AuthAction.validate c] := by
    simp [get_credentials, getCredentialsLoop_ok_trace test prompts c () ht]
  refine ⟨htrace, ?_⟩
  rw [htrace]
  intro a ha
  simp only [List.mem_cons, List.not_mem_nil, or_false] at ha
  rcases ha with rfl | rfl <;> exact ⟨by simp, by simp⟩

/-- C5 witness: concrete valid cache — the trace is the cache read and one
validation, with no bind action. -/
theorem cache_hit_no_binds_witness :
    (get_credentials ⟨some "tok", fun _ => .ok (), []⟩).1 =
      [AuthAction.useCached, AuthAction.validate "tok"] :=
  (cache_hit_no_binds ⟨some "tok", fun _ => .ok (), []⟩ "tok" rfl rfl).1

/-- C2: the redirect request line `GET /login?code=ABC123&state=xyz HTTP/1.1`
yields the authorization code `ABC123`; and for any redirect request whose
query string carries no `code` parameter, the Authorization-Code flow returns
an error and its action trace contains no token exchange. -/
theorem authcode_extraction :
    (get_authcode_from_redirect "GET /login?code=ABC123&state=xyz HTTP/1.1" =
      .ok "ABC123") ∧
    (∀ p : PromptEnv,
       (∀ kv ∈ queryPairs (redirectUrlOfLine p.requestLine), kv.1 ≠ "code") →
       (∃ e, (create_credentials_with_secret p).2 = .error e) ∧
       (∀ code, AuthAction.exchangeCode code ∉ (create_credentials_with_secret p).1)) := by
  constructor
  · rfl
  · intro p h
    have herr : ∃ e, get_authcode_from_redirect p.requestLine = .error e := by
      cases hp : requestPath p.requestLine with
      | none => exact ⟨"Failed to parse request", by simp [get_authcode_from_redirect, hp]⟩
      | some path =>
        have hurl : redirectUrlOfLine p.requestLine = "http://localhost" ++ path := by
          simp [redirectUrlOfLine, hp]
        have hfind : (queryPairs ("http://localhost" ++ path)).find?
            (fun kv => kv.1 == "code") = none := by
          apply List.find?_eq_none.mpr
          intro kv hkv
          have := h kv (by rw [hurl]; exact hkv)
          simpa using this
        refine ⟨"No authorization code found in URL: " ++ ("http://localhost" ++ path), ?_⟩
        simp [get_authcode_from_redirect, hp, get_code_from_url, hfind]
    obtain ⟨e, he⟩ := herr
    constructor
    · exact ⟨e, by simp [create_credentials_with_secret, he]⟩
    · intro code
      simp [create_credentials_with_secret, he]

/-- C2 witness: a redirect carrying only an `error` parameter — the flow
fails and never reaches a token exchange. -/
theorem authcode_extraction_witness :
    (∃ e, (create_credentials_with_secret
        ⟨true, "GET /login?error=denied HTTP/1.1", fun _ => .ok "tok", .error ""⟩).2 =
      .error e) ∧
    (∀ code, AuthAction.exchangeCode code ∉
      (create_credentials_with_secret
        ⟨true, "GET /login?error=denied HTTP/1.1", fun _ => .ok "tok", .error ""⟩).1) :=
  authcode_extraction.2
    ⟨true, "GET /login?error=denied HTTP/1.1", fun _ => .ok "tok", .error ""⟩
    (by decide)

/-- C3 counterexample: when the port probe's bind fails, the acquisition path
does not surface a graceful error — `get_client_redirect_uri` panics via
`expect("Could not find free port")`. -/
theorem port_panic_counterexample :
    get_client_redirect_uri (Except.error "no free port") =
        Outcome.panicked "Could not find free port" ∧
      get_client_redirect_uri (Except.error "no free port") ≠
        Outcome.err "no free port" := by
  exact ⟨rfl, by decide⟩

/-- C3 (amended): find_free_port surfaces a bind failure as an error value,
but get_client_redirect_uri unwraps it with `expect`, so when no free local
port can be bound the credential-acquisition path terminates by panic
("Could not find free port") instead of propagating a configuration error to
the top level; on success it yields the 127.0.0.1 login redirect URI. -/
theorem port_bind_failure_panics :
    ∀ e : String,
      find_free_port (Except.error e) = Except.error e ∧
      get_client_redirect_uri (Except.error e) =
        Outcome.panicked "Could not find free port" ∧
      (∀ port : Nat,
        find_free_port (Except.ok port) = Except.ok port ∧
        get_client_redirect_uri (Except.ok port) =
          Outcome.ok ("http://127.0.0.1:" ++ toString port ++ "/login")) :=
  fun _ => ⟨rfl, rfl, fun _ => ⟨rfl, rfl⟩⟩

end Ncspot
